import Mathlib

/-!
Shallow embedding of the reviewdog Gerrit service core
(`src/service/gerrit/change_review.go` and `src/service/gerrit/change_diff.go`).

The data model mirrors the protobuf/Go structures used by those files.  Protobuf
message fields are pointers in Go (nil-able), so they are modelled as `Option`;
scalar fields default to `0`/`""`.  The nil-safe generated getters (`GetLocation`,
`GetRange`, `GetStart`, `GetLine`, ...) are modelled as total functions on
`Option`, while direct field dereferences in the Go code (which panic on nil)
are modelled in the `Option` monad, `none` standing for a runtime panic.

Side-effecting calls are made explicit: the single `SetReview` HTTP call issued
by `postAllComments` is returned as a list of `SetReviewCall` records (the call
trace), and the `git diff` subprocess run by `gitDiff` is returned as a list of
`CommandInvocation` records together with the propagated result.
-/

namespace Gerrit

/-- Modelled from the spec: `rdf.Position`, a 1-based line/column source position
(protobuf scalar fields, `int32`, defaulting to 0). The `rdf` proto package is part
of the repository but not under `src/`. -/
structure Position where
  line : Int
  column : Int
deriving DecidableEq, Repr

/-- Modelled from the spec: `rdf.Range`, a start/end pair of positions; both ends
are nil-able message fields. -/
structure RdfRange where
  start : Option Position
  end_ : Option Position
deriving DecidableEq, Repr

/-- Modelled from the spec: `rdf.Location`, a file path (relative to the analysis
working directory before `Post` rewrites it) plus a nil-able range. -/
structure Location where
  path : String
  range : Option RdfRange
deriving DecidableEq, Repr

/-- Modelled from the spec: `rdf.Suggestion`, a proposed replacement text over a
range (the range is a nil-able message field). -/
structure Suggestion where
  range : Option RdfRange
  text : String
deriving DecidableEq, Repr

/-- Modelled from the spec: `rdf.Diagnostic`, restricted to the fields this core
reads: message text, nil-able location, and the ordered suggestions list. -/
structure Diagnostic where
  message : String
  location : Option Location
  suggestions : List Suggestion
deriving DecidableEq, Repr

/-- Modelled from the spec: `filter.FilteredDiagnostic` (the repository's `filter`
package, not under `src/`), restricted to the fields this core reads: the
diagnostic plus the `InDiffFile`, `ShouldReport` and `FirstSuggestionInDiffContext`
flags set by upstream collaborators. -/
structure FilteredDiagnostic where
  diagnostic : Diagnostic
  inDiffFile : Bool
  shouldReport : Bool
  firstSuggestionInDiffContext : Bool
deriving DecidableEq, Repr

/-- Modelled from the spec: `reviewdog.Comment`, the input unit consumed by the
aggregator; only its `Result` field is read by this core. -/
structure Comment where
  result : FilteredDiagnostic
deriving DecidableEq, Repr

/-- Nil-safe getter `(*rdf.Location).GetPath`: empty string on a nil receiver. -/
def GetPath : Option Location → String
  | some l => l.path
  | none => ""

/-- Nil-safe getter `(*rdf.Location).GetRange`: nil on a nil receiver. -/
def GetLocRange : Option Location → Option RdfRange
  | some l => l.range
  | none => none

/-- Nil-safe getter `(*rdf.Range).GetStart`. -/
def GetStart : Option RdfRange → Option Position
  | some r => r.start
  | none => none

/-- Nil-safe getter `(*rdf.Range).GetEnd`. -/
def GetEnd : Option RdfRange → Option Position
  | some r => r.end_
  | none => none

/-- Nil-safe getter `(*rdf.Position).GetLine`: 0 on a nil receiver. -/
def GetLine : Option Position → Int
  | some p => p.line
  | none => 0

/-- Nil-safe getter `(*rdf.Position).GetColumn`: 0 on a nil receiver. -/
def GetColumn : Option Position → Int
  | some p => p.column
  | none => 0

/-! `path/filepath` (Go standard library, unix rules), used by `Post` via
`filepath.Join(g.wd, path)`.  `Clean` is the lexical cleaning state machine of
`filepath.Clean`; the output buffer with its `..`-barrier is represented as a
reversed stack of components. -/

/-- Character-level test matching `os.IsPathSeparator` on unix. -/
def isSep (ch : Char) : Bool := ch = '/'

/-- Splits a character list on `/`, keeping empty components (they are skipped by
the cleaning loop, as consecutive separators are in Go's `Clean`). -/
def splitComps : List Char → List (List Char)
  | [] => [[]]
  | ch :: rest =>
    if isSep ch then [] :: splitComps rest
    else
      match splitComps rest with
      | comp :: comps => (ch :: comp) :: comps
      | [] => [[ch]]

/-- Cleaning loop of `filepath.Clean`: `stack` is the output buffer's components
in reverse order.  Empty and `.` components are dropped; `..` pops the previous
component when one is above the barrier (always poppable when rooted; blocked by
a leading `..` when not rooted, in which case the `..` is kept). -/
def cleanStack (rooted : Bool) : List (List Char) → List (List Char) → List (List Char)
  | [], stack => stack
  | comp :: rest, stack =>
    if comp = [] ∨ comp = ['.'] then cleanStack rooted rest stack
    else if comp = ['.', '.'] then
      match stack with
      | top :: stack' =>
        if rooted ∨ top ≠ ['.', '.'] then cleanStack rooted rest stack'
        else cleanStack rooted rest (comp :: top :: stack')
      | [] =>
        if rooted then cleanStack rooted rest []
        else cleanStack rooted rest [comp]
    else cleanStack rooted rest (comp :: stack)

/-- Joins components with `/` separators (the output buffer's final content). -/
def intercalateSep : List (List Char) → List Char
  | [] => []
  | [c] => c
  | c :: rest => c ++ '/' :: intercalateSep rest

/-- `filepath.Clean` on unix: shortest lexically-equivalent path; `"."` for the
empty path, a leading `/` preserved, trailing separators and `.` components
dropped, `..` resolved against the previous component. -/
def Clean (path : String) : String :=
  match path.data with
  | [] => "."
  | ch :: rest =>
    let rooted := isSep ch
    let out := intercalateSep (cleanStack rooted (splitComps (ch :: rest)) []).reverse
    if rooted then String.mk ('/' :: out)
    else if out = [] then "."
    else String.mk out

/-- `filepath.Join`: drops leading empty elements, joins the remainder (later
empties included) with `/`, and `Clean`s the result; the all-empty join is `""`. -/
def filepathJoin (elems : List String) : String :=
  match elems.dropWhile (fun e => e = "") with
  | [] => ""
  | rest => Clean (String.intercalate "/" rest)

/-! Wire-format structures of the host client (`golang.org/x/build/gerrit`),
restricted to the fields this core writes. -/

/-- `gerrit.CommentRange`: 1-based lines, 0-based character offsets. -/
structure CommentRange where
  startLine : Int
  startCharacter : Int
  endLine : Int
  endCharacter : Int
deriving DecidableEq, Repr

/-- Modelled from the spec: `gerrit.CommentInput`, the anchor-and-message part of
a comment entry; per the spec the anchor is either a single line number or a
start/end character range, so the range is kept as an explicit `Option` that the
code under `src/` never sets. -/
structure CommentInput where
  line : Int
  message : String
  range : Option CommentRange
deriving DecidableEq, Repr

/-- `gerrit.FixReplacementInfo`: one replacement of a fix suggestion. -/
structure FixReplacementInfo where
  path : String
  replacement : String
  range : CommentRange
deriving DecidableEq, Repr

/-- `gerrit.FixSuggestionInfo`: a description plus its replacements. -/
structure FixSuggestionInfo where
  description : String
  replacements : List FixReplacementInfo
deriving DecidableEq, Repr

/-- `gerrit.RobotCommentInput`: the embedded `CommentInput` plus robot metadata
and the fix-suggestion list. -/
structure RobotCommentInput where
  commentInput : CommentInput
  robotID : String
  robotRunID : String
  url : String
  fixSuggestions : List FixSuggestionInfo
deriving DecidableEq, Repr

/-- `gerrit.ReviewInput` restricted to the field this core writes: the robot
comments, a map from file path to an ordered entry list.  Go map iteration order
is unspecified, so the map is modelled extensionally as a function from keys to
entry lists (absent key = `[]`, matching `append` to a nil slice). -/
structure ReviewInput where
  robotComments : String → List RobotCommentInput

/-- Record of one `cli.SetReview(ctx, changeID, revisionID, review)` call. -/
structure SetReviewCall where
  changeID : String
  revisionID : String
  review : ReviewInput

/-- Modelled from the spec: run metadata read from the process environment
variables `GERRIT_REVIEWDOG_RUN_ID` and `GERRIT_REVIEWDOG_RUN_URL` at
payload-build time (empty string when unset), modelled as an explicit
configuration record threaded into the payload builder. -/
structure GerritEnv where
  runID : String
  runURL : String
deriving DecidableEq, Repr

/-- Modelled from the spec: `commentutil.GerritComment` (the repository's
`service/commentutil` package, not under `src/`) renders the comment body text
submitted to the host; the spec only requires each entry to carry the
diagnostic's message text, so it is modelled as exactly that. -/
def GerritComment (c : Comment) : String :=
  c.result.diagnostic.message

/-- `ChangeReviewCommenter`: change/revision addressing, the pending comment
buffer, and the working directory relative to the repository root. -/
structure ChangeReviewCommenter where
  changeID : String
  revisionID : String
  postComments : List Comment
  wd : String
deriving DecidableEq, Repr

/-- `NewChangeReviewCommenter` with the working directory already resolved by
`serviceutil.GitRelWorkdir` (an external collaborator): empty buffer. -/
def NewChangeReviewCommenter (changeID revisionID wd : String) : ChangeReviewCommenter :=
  { changeID := changeID, revisionID := revisionID, postComments := [], wd := wd }

/-- `Post`: rewrites the comment's location path with
`filepath.Join(g.wd, path)` and appends the mutated comment to the buffer.
The Go statement assigns through `GetLocation()`, which panics when the
location is nil (`none` here). -/
def ChangeReviewCommenter.Post (g : ChangeReviewCommenter) (c : Comment) :
    Option ChangeReviewCommenter :=
  match c.result.diagnostic.location with
  | none => none
  | some loc =>
    let c' : Comment :=
      { c with result := { c.result with diagnostic := { c.result.diagnostic with
          location := some { loc with path := filepathJoin [g.wd, loc.path] } } } }
    some { g with postComments := g.postComments ++ [c'] }

/-- `buildCommentRange`: direct (panicking) dereferences `s.Range.Start` and
`s.Range.End`; 1-based columns become 0-based character offsets, lines pass
through unchanged. -/
def buildCommentRange (s : Suggestion) : Option CommentRange := do
  let r ← s.range
  let st ← r.start
  let en ← r.end_
  pure { startLine := st.line, startCharacter := st.column - 1,
         endLine := en.line, endCharacter := en.column - 1 }

/-- `buildFixSuggestion`: one fix entry carrying the comment's (already
rewritten) file path, the suggestion's text, and the 0-based-mapped range. -/
def buildFixSuggestion (c : Comment) (s : Suggestion) : Option FixSuggestionInfo :=
  (buildCommentRange s).map fun cr =>
    { description := "suggestion",
      replacements := [{ path := GetPath c.result.diagnostic.location,
                         replacement := s.text, range := cr }] }

/-- `gerritCommentLine`: the first suggestion's start line when
`FirstSuggestionInDiffContext` holds and a suggestion exists, otherwise the
diagnostic location's start line (all through nil-safe getters). -/
def gerritCommentLine (c : Comment) : Int :=
  match c.result.firstSuggestionInDiffContext, c.result.diagnostic.suggestions with
  | true, s :: _ => GetLine (GetStart s.range)
  | _, _ => GetLine (GetStart (GetLocRange c.result.diagnostic.location))

/-- Loop body of `buildRobotComment`'s `for _, s := range Suggestions` append:
builds the fix entries in suggestion order, propagating a panic as `none`. -/
def buildFixSuggestions (c : Comment) : List Suggestion → Option (List FixSuggestionInfo)
  | [] => some []
  | s :: rest => do
    let fx ← buildFixSuggestion c s
    let fxs ← buildFixSuggestions c rest
    pure (fx :: fxs)

/-- `buildRobotComment`: message, anchor line from `gerritCommentLine` (the
range anchor is never set), fixed robot identity, environment-sourced run
metadata, and the in-order fix-suggestion list. -/
def buildRobotComment (env : GerritEnv) (c : Comment) : Option RobotCommentInput := do
  let fxs ← buildFixSuggestions c c.result.diagnostic.suggestions
  pure { commentInput := { line := gerritCommentLine c, message := GerritComment c,
                           range := none },
         robotID := "reviewdog 🐶",
         robotRunID := env.runID,
         url := env.runURL,
         fixSuggestions := fxs }

/-- `review.RobotComments[path] = append(review.RobotComments[path], rc)`. -/
def appendRobotComment (m : String → List RobotCommentInput) (p : String)
    (rc : RobotCommentInput) : String → List RobotCommentInput :=
  fun q => if q = p then m q ++ [rc] else m q

/-- Loop of `postAllComments`: skips comments outside the diff, then comments
not to be reported, and appends each remaining comment's robot entry under its
(already rewritten) file path. -/
def postAllCommentsLoop (env : GerritEnv) (m : String → List RobotCommentInput) :
    List Comment → Option (String → List RobotCommentInput)
  | [] => some m
  | c :: rest =>
    if !c.result.inDiffFile then postAllCommentsLoop env m rest
    else if !c.result.shouldReport then postAllCommentsLoop env m rest
    else do
      let rc ← buildRobotComment env c
      postAllCommentsLoop env
        (appendRobotComment m (GetPath c.result.diagnostic.location) rc) rest

/-- `postAllComments`: builds the review payload from the whole buffer (starting
from the empty map) and issues exactly one `SetReview` call addressed by the
aggregator's change and revision identifiers; the returned list is the trace of
`SetReview` calls made. -/
def ChangeReviewCommenter.postAllComments (env : GerritEnv) (g : ChangeReviewCommenter) :
    Option (List SetReviewCall) :=
  (postAllCommentsLoop env (fun _ => []) g.postComments).map fun m =>
    [{ changeID := g.changeID, revisionID := g.revisionID,
       review := { robotComments := m } }]

/-- `Flush`: runs `postAllComments` under the lock and returns.  The Go code
never resets `g.postComments`, so the returned aggregator state is the input
state unchanged, whatever the submission outcome. -/
def ChangeReviewCommenter.Flush (env : GerritEnv) (g : ChangeReviewCommenter) :
    Option (ChangeReviewCommenter × List SetReviewCall) :=
  (g.postAllComments env).map fun calls => (g, calls)

/-- Entry list that a `Flush` submits under the path key `p` (the single
`SetReview` call's payload at `p`), `none` when payload building panics. -/
def flushAt (env : GerritEnv) (g : ChangeReviewCommenter) (p : String) :
    Option (List RobotCommentInput) :=
  (g.Flush env).map fun st => (st.2.map fun call => call.review.robotComments p).flatten

/-! `src/service/gerrit/change_diff.go`. -/

/-- Raw bytes of the subprocess's standard output. -/
abbrev DiffBytes := List Nat

/-- Record of one external command invocation (`exec.Command(program, args...)`). -/
structure CommandInvocation where
  program : String
  args : List String
deriving DecidableEq, Repr

/-- `ChangeDiff`: change/revision addressing plus the working directory
relative to the repository root. -/
structure ChangeDiff where
  changeID : String
  revisionID : String
  wd : String
deriving DecidableEq, Repr

/-- `stripDiffResult` constant. -/
def stripDiffResult : Nat := 1

/-- Argument list of the `git diff` invocation:
`git diff --find-renames <revisionID>~ <revisionID>`. -/
def gitDiffArgs (revisionID : String) : List String :=
  ["diff", "--find-renames", revisionID ++ "~", revisionID]

/-- `gitDiff`: runs the external command once (its outcome is the `execResult`
parameter: `error` covers both a start failure and a non-zero exit of
`Output()`), wraps a failure with the operation name, and returns the raw
output bytes otherwise.  The first component is the trace of invocations. -/
def ChangeDiff.gitDiff (g : ChangeDiff) (execResult : Except String DiffBytes) :
    List CommandInvocation × Except String DiffBytes :=
  ([{ program := "git", args := gitDiffArgs g.revisionID }],
   match execResult with
   | Except.error e => Except.error ("failed to run git diff: " ++ e)
   | Except.ok b => Except.ok b)

/-- `Diff` delegates to `gitDiff`. -/
def ChangeDiff.Diff (g : ChangeDiff) (execResult : Except String DiffBytes) :
    List CommandInvocation × Except String DiffBytes :=
  g.gitDiff execResult

/-- `Strip` returns the fixed strip count 1. -/
def ChangeDiff.Strip (_ : ChangeDiff) : Nat :=
  stripDiffResult

/-- Modelled from the spec: the spec describes the diff invocation as
"arguments equivalent to `diff --find-renames <revision>~1 <revision>`"; in
git's documented revision syntax `<rev>~` is shorthand for `<rev>~1` (the first
parent), so an argument references the first parent of `r` when it is either
spelling. -/
def DenotesFirstParent (arg : String) (r : String) : Prop :=
  arg = r ++ "~" ∨ arg = r ++ "~1"

/-! Specification-side descriptions, used to state refinement properties of the
payload builder. -/

/-- Specification-side description of an entry list: the in-order, one-to-one
image of a comment list under `buildRobotComment` (`none` when a build
panics). -/
def buildRobotComments (env : GerritEnv) : List Comment → Option (List RobotCommentInput)
  | [] => some []
  | c :: rest => do
    let rc ← buildRobotComment env c
    let rcs ← buildRobotComments env rest
    pure (rc :: rcs)

/-- Comments that the payload keeps under the path key `p`: in the diff, to be
reported, and located (after `Post`'s rewrite) at `p`. -/
def keptForPath (p : String) (c : Comment) : Bool :=
  c.result.inDiffFile && c.result.shouldReport &&
    decide (GetPath c.result.diagnostic.location = p)

/-- Path stored on the most recently appended buffered comment, when the
operation producing the aggregator did not panic. -/
def lastStoredPath (g : Option ChangeReviewCommenter) : Option String :=
  g.bind fun gc =>
    (gc.postComments.getLast?).map fun c => GetPath c.result.diagnostic.location

/-! Concrete instances used to evaluate the model. -/

/-- Fixed run metadata for concrete evaluations. -/
def env0 : GerritEnv := { runID := "runid", runURL := "runurl" }

/-- Location at `a.go`, range lines 10-10, columns 1-3. -/
def loc1ex : Location :=
  { path := "a.go",
    range := some { start := some { line := 10, column := 1 },
                    end_ := some { line := 10, column := 3 } } }

/-- Comment in the diff, to be reported, no suggestions, anchored at `a.go`
line 10. -/
def c1ex : Comment :=
  { result := { diagnostic := { message := "msg", location := some loc1ex,
                                suggestions := [] },
                inDiffFile := true, shouldReport := true,
                firstSuggestionInDiffContext := false } }

/-- Same as `c1ex` but with message "B". -/
def cBex : Comment :=
  { result := { diagnostic := { message := "B", location := some loc1ex,
                                suggestions := [] },
                inDiffFile := true, shouldReport := true,
                firstSuggestionInDiffContext := false } }

/-- Same as `c1ex` but outside the diff. -/
def cCex : Comment :=
  { result := { diagnostic := { message := "C", location := some loc1ex,
                                suggestions := [] },
                inDiffFile := false, shouldReport := true,
                firstSuggestionInDiffContext := false } }

/-- Same as `c1ex` but not to be reported. -/
def cDex : Comment :=
  { result := { diagnostic := { message := "D", location := some loc1ex,
                                suggestions := [] },
                inDiffFile := true, shouldReport := false,
                firstSuggestionInDiffContext := false } }

/-- Fresh aggregator for change "chg", revision "rev", working directory at the
repository root. -/
def g1ex : ChangeReviewCommenter := NewChangeReviewCommenter "chg" "rev" ""

/-- Aggregator state after `g1ex.Post c1ex`. -/
def g2ex : ChangeReviewCommenter :=
  { changeID := "chg", revisionID := "rev", postComments := [c1ex], wd := "" }

/-- Aggregator holding `[c1ex, cBex, cCex]` (two kept, one skipped). -/
def g7ex : ChangeReviewCommenter :=
  { changeID := "chg", revisionID := "rev", postComments := [c1ex, cBex, cCex],
    wd := "" }

/-- Aggregator holding only `cDex` (everything filtered at flush time). -/
def g10ex : ChangeReviewCommenter :=
  { changeID := "chg", revisionID := "rev", postComments := [cDex], wd := "" }

/-- Robot entry built from `c1ex` under `env0`. -/
def rc1ex : RobotCommentInput :=
  { commentInput := { line := 10, message := "msg", range := none },
    robotID := "reviewdog 🐶", robotRunID := "runid", url := "runurl",
    fixSuggestions := [] }

/-- Robot entry built from `cBex` under `env0`. -/
def rcBex : RobotCommentInput :=
  { commentInput := { line := 10, message := "B", range := none },
    robotID := "reviewdog 🐶", robotRunID := "runid", url := "runurl",
    fixSuggestions := [] }

/-- Suggestion with range lines 2-2, 1-based columns 4-6. -/
def sugg46 : Suggestion :=
  { range := some { start := some { line := 2, column := 4 },
                    end_ := some { line := 2, column := 6 } },
    text := "fixed" }

/-- Comment whose first suggestion is in diff context (suggestion `sugg46`),
diagnostic anchored at `a.go` line 10. -/
def c2ex : Comment :=
  { result := { diagnostic := { message := "msg", location := some loc1ex,
                                suggestions := [sugg46] },
                inDiffFile := true, shouldReport := true,
                firstSuggestionInDiffContext := true } }

/-- Suggestion at line 10, 1-based columns 3-5. -/
def sugg35 : Suggestion :=
  { range := some { start := some { line := 10, column := 3 },
                    end_ := some { line := 10, column := 5 } },
    text := "s1" }

/-- Suggestion at line 10, 1-based columns 7-9. -/
def sugg79 : Suggestion :=
  { range := some { start := some { line := 10, column := 7 },
                    end_ := some { line := 10, column := 9 } },
    text := "s2" }

/-- Location at `b.go`, range lines 10-10, columns 1-2. -/
def loc6ex : Location :=
  { path := "b.go",
    range := some { start := some { line := 10, column := 1 },
                    end_ := some { line := 10, column := 2 } } }

/-- Comment with two suggestions (columns 3-5 then 7-9) and
`firstSuggestionInDiffContext` unset, at `b.go` line 10. -/
def c6ex : Comment :=
  { result := { diagnostic := { message := "m6", location := some loc6ex,
                                suggestions := [sugg35, sugg79] },
                inDiffFile := true, shouldReport := true,
                firstSuggestionInDiffContext := false } }

/-- Robot entry built from `c6ex` under `env0`. -/
def rc6ex : RobotCommentInput :=
  { commentInput := { line := 10, message := "m6", range := none },
    robotID := "reviewdog 🐶", robotRunID := "runid", url := "runurl",
    fixSuggestions :=
      [{ description := "suggestion",
         replacements := [{ path := "b.go", replacement := "s1",
                            range := { startLine := 10, startCharacter := 2,
                                       endLine := 10, endCharacter := 4 } }] },
       { description := "suggestion",
         replacements := [{ path := "b.go", replacement := "s2",
                            range := { startLine := 10, startCharacter := 6,
                                       endLine := 10, endCharacter := 8 } }] }] }

/-- Robot entry built from `c2ex` under `env0`: a bare line anchor (line 2, the
first suggestion's start line), no range anchor, and the 0-based column
conversion appearing only in the fix-suggestion range. -/
def rc2ex : RobotCommentInput :=
  { commentInput := { line := 2, message := "msg", range := none },
    robotID := "reviewdog 🐶", robotRunID := "runid", url := "runurl",
    fixSuggestions :=
      [{ description := "suggestion",
         replacements := [{ path := "a.go", replacement := "fixed",
                            range := { startLine := 2, startCharacter := 3,
                                       endLine := 2, endCharacter := 5 } }] }] }

/-- Location whose path `./a.go` is not in cleaned form. -/
def loc9ex : Location := { path := "./a.go", range := none }

/-- Comment whose location path `./a.go` is not in cleaned form. -/
def c9ex : Comment :=
  { result := { diagnostic := { message := "m9", location := some loc9ex,
                                suggestions := [] },
                inDiffFile := true, shouldReport := true,
                firstSuggestionInDiffContext := false } }

end Gerrit

namespace Gerrit

/-! Helper lemmas. -/

/-- Joining a path onto an empty working directory is lexical cleaning. -/
theorem filepathJoin_empty_wd (p : String) (hp : p ≠ "") :
    filepathJoin ["", p] = Clean p := by
  unfold filepathJoin
  have hdrop : List.dropWhile (fun e => e = "") ["", p] = [p] := by
    simp [List.dropWhile_cons, hp]
  rw [hdrop]
  rfl

/-- Cleaning never yields the empty string on a fixed point. -/
theorem ne_empty_of_clean_fixed (p : String) (hclean : Clean p = p) : p ≠ "" := by
  intro h0
  rw [h0] at hclean
  exact absurd hclean (by decide)

/-- C8: for every revision identifier `R`, diff retrieval invokes the external
git diff tool exactly once with rename detection enabled (`--find-renames`) and
with arguments referencing exactly the revisions `R~1` (spelled `R~`, git's
shorthand for `R~1`) and `R`; a failed subprocess (non-zero exit or a start
failure) surfaces as an error wrapped with the failing operation's name, with
no second invocation. -/
theorem gitDiff_single_invocation_refs_parent_and_wraps_error
    (cid r wd e : String) (b : DiffBytes) (res : Except String DiffBytes) :
    ((ChangeDiff.mk cid r wd).gitDiff res).1 =
      [{ program := "git", args := gitDiffArgs r }] ∧
    gitDiffArgs r = ["diff", "--find-renames", r ++ "~", r] ∧
    DenotesFirstParent (r ++ "~") r ∧
    "--find-renames" ∈ gitDiffArgs r ∧
    ((ChangeDiff.mk cid r wd).gitDiff res).1.length = 1 ∧
    ((ChangeDiff.mk cid r wd).gitDiff (Except.error e)).2 =
      Except.error ("failed to run git diff: " ++ e) ∧
    ((ChangeDiff.mk cid r wd).gitDiff (Except.ok b)).2 = Except.ok b ∧
    (ChangeDiff.mk cid r wd).Diff res = (ChangeDiff.mk cid r wd).gitDiff res := by
  refine ⟨rfl, rfl, Or.inl rfl, ?_, rfl, rfl, rfl, rfl⟩
  simp [gitDiffArgs]

/-- C9 (counterexample): with an empty working-directory prefix, `Post` does
not leave every path unchanged: the input path `./a.go` is stored as `a.go`
(the `filepath.Join` call cleans the path even when the prefix is empty). -/
theorem post_wd_empty_path_changed_counterexample :
    lastStoredPath (g1ex.Post c9ex) = some "a.go" ∧
    lastStoredPath (g1ex.Post c9ex) ≠ some "./a.go" := by
  exact ⟨by decide, by decide⟩

/-- C9 (amended): when the aggregator's working-directory prefix is empty and
the comment's location path is already in cleaned form (a `filepath.Clean`
fixed point), `Post` stores the path unchanged; a path not in cleaned form may
be rewritten (see the counterexample, where `./a.go` is stored as `a.go`). -/
theorem post_wd_empty_preserves_cleaned_path
    (g : ChangeReviewCommenter) (c : Comment) (loc : Location)
    (hwd : g.wd = "") (hloc : c.result.diagnostic.location = some loc)
    (hclean : Clean loc.path = loc.path) :
    lastStoredPath (g.Post c) = some loc.path := by
  have hp : loc.path ≠ "" := ne_empty_of_clean_fixed loc.path hclean
  unfold ChangeReviewCommenter.Post
  rw [hloc]
  unfold lastStoredPath
  simp [List.getLast?_concat, GetPath, hwd, filepathJoin_empty_wd loc.path hp, hclean]

/-- Witness for the amended C9 theorem at a concrete input: the cleaned path
`a.go` survives `Post` unchanged. -/
theorem post_wd_empty_preserves_cleaned_path_witness :
    lastStoredPath (g1ex.Post c1ex) = some loc1ex.path :=
  post_wd_empty_preserves_cleaned_path g1ex c1ex loc1ex rfl rfl (by decide)

/-- Destructor for a successful `buildRobotComment`: the fix suggestions come
from `buildFixSuggestions`, and the anchor is the `gerritCommentLine` line with
no range. -/
theorem buildRobotComment_parts (env : GerritEnv) (c : Comment) (rc : RobotCommentInput)
    (h : buildRobotComment env c = some rc) :
    buildFixSuggestions c c.result.diagnostic.suggestions = some rc.fixSuggestions ∧
    rc.commentInput = { line := gerritCommentLine c, message := GerritComment c,
                        range := none } := by
  unfold buildRobotComment at h
  rcases Option.bind_eq_some.mp h with ⟨fxs, hfxs, hpure⟩
  cases Option.some.inj hpure
  exact ⟨hfxs, rfl⟩

/-- Case of `gerritCommentLine` without a privileged first suggestion: the
diagnostic location's start line. -/
theorem gerritCommentLine_no_first (c : Comment)
    (hcase : c.result.firstSuggestionInDiffContext = false ∨
      c.result.diagnostic.suggestions = []) :
    gerritCommentLine c = GetLine (GetStart (GetLocRange c.result.diagnostic.location)) := by
  rcases hcase with h | h
  · cases hss : c.result.diagnostic.suggestions <;> simp [gerritCommentLine, h, hss]
  · cases hflag : c.result.firstSuggestionInDiffContext <;> simp [gerritCommentLine, h, hflag]

/-- Case of `gerritCommentLine` with `firstSuggestionInDiffContext` set and a
first suggestion present: that suggestion's start line. -/
theorem gerritCommentLine_first (c : Comment) (s : Suggestion) (rest : List Suggestion)
    (hflag : c.result.firstSuggestionInDiffContext = true)
    (hss : c.result.diagnostic.suggestions = s :: rest) :
    gerritCommentLine c = GetLine (GetStart s.range) := by
  simp [gerritCommentLine, hflag, hss]

/-- C3: for a buffered comment with `firstSuggestionInDiffContext = false`, or
with zero suggestions, the emitted entry is anchored by a single line number
equal to the diagnostic location's start line and carries no start/end range
anchor. -/
theorem anchor_without_first_suggestion_is_location_line
    (env : GerritEnv) (c : Comment) (rc : RobotCommentInput)
    (hcase : c.result.firstSuggestionInDiffContext = false ∨
      c.result.diagnostic.suggestions = [])
    (hbuild : buildRobotComment env c = some rc) :
    rc.commentInput.line = GetLine (GetStart (GetLocRange c.result.diagnostic.location)) ∧
    rc.commentInput.range = none := by
  obtain ⟨-, hci⟩ := buildRobotComment_parts env c rc hbuild
  rw [hci]
  exact ⟨gerritCommentLine_no_first c hcase, rfl⟩

/-- Witness for the C3 theorem at a concrete input (`c1ex`, no suggestions):
anchor line 10, no range anchor. -/
theorem anchor_without_first_suggestion_is_location_line_witness :
    rc1ex.commentInput.line =
      GetLine (GetStart (GetLocRange c1ex.result.diagnostic.location)) ∧
    rc1ex.commentInput.range = none :=
  anchor_without_first_suggestion_is_location_line env0 c1ex rc1ex
    (Or.inl (by decide)) (by decide)

/-- C2 (counterexample): for the concrete comment `c2ex` with
`firstSuggestionInDiffContext = true` and a suggestion at 1-based columns 4-6,
the emitted entry does not carry a start/end range anchor with character
offsets [3, 5]; its anchor range is absent (a bare line number is emitted
instead). -/
theorem anchor_with_first_suggestion_not_a_range_counterexample :
    buildRobotComment env0 c2ex = some rc2ex ∧
    rc2ex.commentInput.range = none ∧
    rc2ex.commentInput.range ≠
      some { startLine := 2, startCharacter := 3, endLine := 2, endCharacter := 5 } ∧
    rc2ex.commentInput.line = 2 := by
  exact ⟨by decide, rfl, by decide, rfl⟩

/-- C2 (amended): for a buffered comment with `firstSuggestionInDiffContext =
true` and at least one suggestion, the emitted entry is anchored by a single
line number equal to that first suggestion's range start line, and carries no
start/end range anchor (the 1-based to 0-based column conversion appears only
in the fix-suggestion ranges). -/
theorem anchor_with_first_suggestion_is_its_start_line
    (env : GerritEnv) (c : Comment) (s : Suggestion) (rest : List Suggestion)
    (rc : RobotCommentInput)
    (hflag : c.result.firstSuggestionInDiffContext = true)
    (hss : c.result.diagnostic.suggestions = s :: rest)
    (hbuild : buildRobotComment env c = some rc) :
    rc.commentInput.line = GetLine (GetStart s.range) ∧
    rc.commentInput.range = none := by
  obtain ⟨-, hci⟩ := buildRobotComment_parts env c rc hbuild
  rw [hci]
  exact ⟨gerritCommentLine_first c s rest hflag hss, rfl⟩

/-- Witness for the amended C2 theorem at the concrete input `c2ex`: the
anchor is the first suggestion's start line (2), with no range anchor. -/
theorem anchor_with_first_suggestion_is_its_start_line_witness :
    rc2ex.commentInput.line = GetLine (GetStart sugg46.range) ∧
    rc2ex.commentInput.range = none :=
  anchor_with_first_suggestion_is_its_start_line env0 c2ex sugg46 [] rc2ex
    (by decide) (by decide) (by decide)

/-- Index-wise characterization of a successful `buildFixSuggestions` run: the
output has exactly one entry per input suggestion, in order, each built by
`buildFixSuggestion`. -/
theorem buildFixSuggestions_spec (c : Comment) (ss : List Suggestion) :
    ∀ fxs, buildFixSuggestions c ss = some fxs →
      fxs.length = ss.length ∧
      ∀ i s, ss.get? i = some s →
        ∃ fx, fxs.get? i = some fx ∧ buildFixSuggestion c s = some fx := by
  induction ss with
  | nil =>
    intro fxs h
    cases Option.some.inj h
    exact ⟨rfl, fun i s hs => by simp at hs⟩
  | cons s rest ih =>
    intro fxs h
    unfold buildFixSuggestions at h
    rcases Option.bind_eq_some.mp h with ⟨fx, hfx, h2⟩
    rcases Option.bind_eq_some.mp h2 with ⟨fxs', hfxs', h3⟩
    cases Option.some.inj h3
    obtain ⟨hlen, hidx⟩ := ih fxs' hfxs'
    refine ⟨by simp [hlen], ?_⟩
    intro i s' hs'
    cases i with
    | zero =>
      cases Option.some.inj hs'
      exact ⟨fx, rfl, hfx⟩
    | succ n =>
      rw [List.get?_cons_succ] at hs' ⊢
      exact hidx n s' hs'

/-- C6: every emitted entry's fix-suggestion list is the one-to-one,
order-preserving image of the comment's entire suggestions sequence; the `i`-th
fix entry carries the comment's own (rewritten) file path, the `i`-th
suggestion's replacement text, and that suggestion's range with 1-based columns
converted to 0-based character offsets while line numbers pass through
unchanged. -/
theorem fix_suggestions_are_ordered_image
    (env : GerritEnv) (c : Comment) (rc : RobotCommentInput)
    (hbuild : buildRobotComment env c = some rc) :
    rc.fixSuggestions.length = c.result.diagnostic.suggestions.length ∧
    ∀ i s, c.result.diagnostic.suggestions.get? i = some s →
      ∃ r st en, s.range = some r ∧ r.start = some st ∧ r.end_ = some en ∧
        rc.fixSuggestions.get? i =
          some { description := "suggestion",
                 replacements := [{ path := GetPath c.result.diagnostic.location,
                                    replacement := s.text,
                                    range := { startLine := st.line,
                                               startCharacter := st.column - 1,
                                               endLine := en.line,
                                               endCharacter := en.column - 1 } }] } := by
  obtain ⟨hfxs, -⟩ := buildRobotComment_parts env c rc hbuild
  obtain ⟨hlen, hidx⟩ := buildFixSuggestions_spec c _ rc.fixSuggestions hfxs
  refine ⟨hlen, ?_⟩
  intro i s hs
  obtain ⟨fx, hfxi, hfx⟩ := hidx i s hs
  unfold buildFixSuggestion at hfx
  rcases Option.map_eq_some'.mp hfx with ⟨cr, hcr, hfxeq⟩
  unfold buildCommentRange at hcr
  rcases Option.bind_eq_some.mp hcr with ⟨r, hr, h2⟩
  rcases Option.bind_eq_some.mp h2 with ⟨st, hst, h3⟩
  rcases Option.bind_eq_some.mp h3 with ⟨en, hen, h4⟩
  cases Option.some.inj h4
  subst hfxeq
  exact ⟨r, st, en, hr, hst, hen, by rw [hfxi]⟩

/-- Witness for the C6 theorem at the concrete two-suggestion comment `c6ex`:
the entry has exactly as many fix suggestions as the comment has
suggestions. -/
theorem fix_suggestions_are_ordered_image_witness :
    rc6ex.fixSuggestions.length = c6ex.result.diagnostic.suggestions.length :=
  (fix_suggestions_are_ordered_image env0 c6ex rc6ex (by decide)).1

/-- Comments skipped by the in-diff filter leave the payload loop's result
unchanged: running the loop on the in-diff sublist is the same as running it on
the whole list. -/
theorem postAllCommentsLoop_filter_inDiffFile (env : GerritEnv) (cs : List Comment) :
    ∀ m, postAllCommentsLoop env m (cs.filter fun c => c.result.inDiffFile) =
      postAllCommentsLoop env m cs := by
  induction cs with
  | nil => intro m; rfl
  | cons c rest ih =>
    intro m
    cases hdf : c.result.inDiffFile
    · simp [List.filter_cons, hdf, postAllCommentsLoop, ih]
    · cases hsr : c.result.shouldReport
      · simp [List.filter_cons, hdf, hsr, postAllCommentsLoop, ih]
      · simp only [List.filter_cons, hdf, if_true, postAllCommentsLoop, hsr,
          Bool.not_true, Bool.false_eq_true, if_false]
        cases buildRobotComment env c <;> simp [ih]

/-- Comments skipped by the should-report filter leave the payload loop's
result unchanged. -/
theorem postAllCommentsLoop_filter_shouldReport (env : GerritEnv) (cs : List Comment) :
    ∀ m, postAllCommentsLoop env m (cs.filter fun c => c.result.shouldReport) =
      postAllCommentsLoop env m cs := by
  induction cs with
  | nil => intro m; rfl
  | cons c rest ih =>
    intro m
    cases hsr : c.result.shouldReport
    · cases hdf : c.result.inDiffFile <;>
        simp [List.filter_cons, hsr, hdf, postAllCommentsLoop, ih]
    · cases hdf : c.result.inDiffFile
      · simp [List.filter_cons, hsr, hdf, postAllCommentsLoop, ih]
      · simp only [List.filter_cons, hsr, if_true, postAllCommentsLoop, hdf,
          Bool.not_true, Bool.false_eq_true, if_false]
        cases buildRobotComment env c <;> simp [ih]

/-- A buffer whose every comment is filtered out leaves the payload loop's
accumulator untouched. -/
theorem postAllCommentsLoop_skip_all (env : GerritEnv) (cs : List Comment) :
    ∀ m, (∀ c ∈ cs, c.result.inDiffFile = false ∨ c.result.shouldReport = false) →
      postAllCommentsLoop env m cs = some m := by
  induction cs with
  | nil => intro m _; rfl
  | cons c rest ih =>
    intro m h
    have hrest := ih m fun c' hc' => h c' (List.mem_cons_of_mem _ hc')
    rcases h c (List.mem_cons_self c rest) with hc | hc
    · simp [postAllCommentsLoop, hc, hrest]
    · cases hdf : c.result.inDiffFile
      · simp [postAllCommentsLoop, hdf, hrest]
      · simp [postAllCommentsLoop, hdf, hc, hrest]

/-- Accumulator invariant of the payload loop: at every path key `p` the final
map extends the initial map with exactly the in-order `buildRobotComment` image
of the kept comments located at `p`. -/
theorem postAllCommentsLoop_at (env : GerritEnv) (p : String) (cs : List Comment) :
    ∀ m m', postAllCommentsLoop env m cs = some m' →
      ∃ l, buildRobotComments env (cs.filter (keptForPath p)) = some l ∧
        m' p = m p ++ l := by
  induction cs with
  | nil =>
    intro m m' h
    cases Option.some.inj h
    exact ⟨[], rfl, by simp⟩
  | cons c rest ih =>
    intro m m' h
    cases hdf : c.result.inDiffFile
    · simp only [postAllCommentsLoop, hdf, Bool.not_false, if_true] at h
      obtain ⟨l, hl, hp⟩ := ih m m' h
      refine ⟨l, ?_, hp⟩
      simpa [List.filter_cons, keptForPath, hdf] using hl
    · cases hsr : c.result.shouldReport
      · simp only [postAllCommentsLoop, hdf, hsr, Bool.not_true, Bool.not_false,
          Bool.false_eq_true, if_false, if_true] at h
        obtain ⟨l, hl, hp⟩ := ih m m' h
        refine ⟨l, ?_, hp⟩
        simpa [List.filter_cons, keptForPath, hdf, hsr] using hl
      · simp only [postAllCommentsLoop, hdf, hsr, Bool.not_true,
          Bool.false_eq_true, if_false] at h
        rcases Option.bind_eq_some.mp h with ⟨rc, hrc, hloop⟩
        obtain ⟨l, hl, hp⟩ := ih _ m' hloop
        by_cases hpath : GetPath c.result.diagnostic.location = p
        · have hkept : keptForPath p c = true := by
            simp [keptForPath, hdf, hsr, hpath]
          refine ⟨rc :: l, ?_, ?_⟩
          · simp only [List.filter_cons, hkept, if_true, buildRobotComments]
            rw [hrc, hl]
            rfl
          · rw [hp]
            simp [appendRobotComment, hpath]
        · have hkept : keptForPath p c = false := by
            simp [keptForPath, hpath]
          refine ⟨l, ?_, ?_⟩
          · simpa [List.filter_cons, hkept] using hl
          · rw [hp]
            simp [appendRobotComment, Ne.symm hpath]

/-- C7: in the payload built by Flush, entries are keyed by each comment's
already-rewritten file path, and the entry list under any path key `p` is the
in-order image of exactly those buffered comments that are kept and located at
`p` — so two emitted comments with the same path key appear in the relative
order in which they were appended to the buffer by Post. -/
theorem payload_per_path_is_post_order_image
    (env : GerritEnv) (g : ChangeReviewCommenter) (p : String)
    (entries : List RobotCommentInput)
    (h : flushAt env g p = some entries) :
    buildRobotComments env (g.postComments.filter (keptForPath p)) = some entries := by
  unfold flushAt ChangeReviewCommenter.Flush ChangeReviewCommenter.postAllComments at h
  rcases Option.map_eq_some'.mp h with ⟨st, hst, hentries⟩
  rcases Option.map_eq_some'.mp hst with ⟨calls, hcalls, hsteq⟩
  rcases Option.map_eq_some'.mp hcalls with ⟨m, hm, hcallseq⟩
  obtain ⟨l, hl, hp⟩ := postAllCommentsLoop_at env p g.postComments (fun _ => []) m hm
  subst hcallseq hsteq hentries
  rw [hl]
  simp [hp]

/-- Witness for the C7 theorem at the concrete buffer `[c1ex, cBex, cCex]`
(two kept comments for `a.go` posted in that order, one skipped): the list
under `a.go` is their in-order image. -/
theorem payload_per_path_is_post_order_image_witness :
    buildRobotComments env0 (g7ex.postComments.filter (keptForPath "a.go")) =
      some [rc1ex, rcBex] :=
  payload_per_path_is_post_order_image env0 g7ex "a.go" [rc1ex, rcBex] (by decide)

/-- C4: comments Posted with `inDiffFile = false` contribute no entry to the
payload submitted by Flush, regardless of their other fields: deleting all of
them from the buffer leaves `postAllComments`' payload and submission
unchanged. -/
theorem flush_omits_comments_outside_diff
    (env : GerritEnv) (cid rid wd : String) (cs : List Comment) :
    ChangeReviewCommenter.postAllComments env
      ⟨cid, rid, cs.filter fun c => c.result.inDiffFile, wd⟩ =
    ChangeReviewCommenter.postAllComments env ⟨cid, rid, cs, wd⟩ := by
  unfold ChangeReviewCommenter.postAllComments
  rw [postAllCommentsLoop_filter_inDiffFile]

/-- C5: comments Posted with `shouldReport = false` contribute no entry to the
payload submitted by Flush, even when `inDiffFile = true`: deleting all of them
from the buffer leaves `postAllComments`' payload and submission unchanged. -/
theorem flush_omits_unreported_comments
    (env : GerritEnv) (cid rid wd : String) (cs : List Comment) :
    ChangeReviewCommenter.postAllComments env
      ⟨cid, rid, cs.filter fun c => c.result.shouldReport, wd⟩ =
    ChangeReviewCommenter.postAllComments env ⟨cid, rid, cs, wd⟩ := by
  unfold ChangeReviewCommenter.postAllComments
  rw [postAllCommentsLoop_filter_shouldReport]

/-- C10: every Flush that completes issues exactly one `SetReview` submission,
addressed by the aggregator's change and revision identifiers; and when the
buffer is empty or every buffered comment is skipped by the in-diff and
should-report filters, Flush does not short-circuit — it still submits exactly
one payload whose robot-comments map is empty at every key. -/
theorem flush_submits_exactly_one_setReview (env : GerritEnv) (g : ChangeReviewCommenter) :
    (∀ st calls, g.Flush env = some (st, calls) →
      st = g ∧ ∃ review, calls =
        [{ changeID := g.changeID, revisionID := g.revisionID, review := review }]) ∧
    ((∀ c ∈ g.postComments,
        c.result.inDiffFile = false ∨ c.result.shouldReport = false) →
      ∃ review, g.Flush env =
          some (g, [{ changeID := g.changeID, revisionID := g.revisionID,
                      review := review }]) ∧
        ∀ p, review.robotComments p = []) := by
  constructor
  · intro st calls h
    unfold ChangeReviewCommenter.Flush ChangeReviewCommenter.postAllComments at h
    rcases Option.map_eq_some'.mp h with ⟨calls', hcalls', heq⟩
    rcases Option.map_eq_some'.mp hcalls' with ⟨m, hm, hceq⟩
    cases heq
    subst hceq
    exact ⟨rfl, ⟨{ robotComments := m }, rfl⟩⟩
  · intro h
    have hm := postAllCommentsLoop_skip_all env g.postComments (fun _ => []) h
    refine ⟨{ robotComments := fun _ => [] }, ?_, fun p => rfl⟩
    unfold ChangeReviewCommenter.Flush ChangeReviewCommenter.postAllComments
    rw [hm]
    rfl

/-- Witness for the C10 theorem at the concrete aggregator `g10ex`, whose only
buffered comment has `shouldReport = false`: one submission is still issued,
with an empty robot-comments payload. -/
theorem flush_submits_exactly_one_setReview_witness :
    ∃ review, g10ex.Flush env0 =
        some (g10ex, [{ changeID := "chg", revisionID := "rev", review := review }]) ∧
      review.robotComments "a.go" = [] := by
  obtain ⟨review, hflush, hempty⟩ :=
    (flush_submits_exactly_one_setReview env0 g10ex).2 (by decide)
  exact ⟨review, hflush, hempty "a.go"⟩

/-- C1 (evaluation at the failing input): `Flush` never clears the pending
buffer, so a comment that was part of a successful submission is submitted
again by a subsequent Flush.  Concretely: after `Post c1ex`, a first Flush
submits the entry `rc1ex` under `a.go`; running Flush again on the state the
first Flush returned submits the same entry `rc1ex` again — contradicting both
the spec's "fully drained and (logically) cleared by a successful Flush" and
the code's own doc comment "Flush posts comments which has not been posted
yet". -/
theorem flush_leaves_buffer_and_resubmits :
    g1ex.Post c1ex = some g2ex ∧
    flushAt env0 g2ex "a.go" = some [rc1ex] ∧
    ((g2ex.Flush env0).bind fun st => flushAt env0 st.1 "a.go") = some [rc1ex] :=
  ⟨by decide, by decide, by decide⟩

end Gerrit
